import Mathlib

/-!
Verification of the 6DoF ballistics integrator
(crates/ballistics-6dof/src/lib.rs) against its specification.

Floating-point scalars are modelled as real numbers; the Rust intrinsics
`sqrt`, `sin_cos`, `acos`, `powf`, `exp` and `atan2` are modelled by the
corresponding exact real functions, `f64::max`/`clamp` by `max`/`min`.
-/

namespace Ballistics

noncomputable section

/-- Two-argument arctangent, modelling `f64::atan2` (IEEE convention,
`atan2 0 0 = 0`). -/
def atan2 (y x : ℝ) : ℝ :=
  if 0 < x then Real.arctan (y / x)
  else if x < 0 then
    (if 0 ≤ y then Real.arctan (y / x) + Real.pi else Real.arctan (y / x) - Real.pi)
  else
    (if 0 < y then Real.pi / 2 else if y < 0 then -(Real.pi / 2) else 0)

/-- Rust `f64::clamp(lo, hi)`. -/
def rclamp (x lo hi : ℝ) : ℝ := min (max x lo) hi

@[ext]
structure Vec3 where
  x : ℝ
  y : ℝ
  z : ℝ

namespace Vec3

def zero : Vec3 := ⟨0, 0, 0⟩

def scale (v : Vec3) (k : ℝ) : Vec3 := ⟨v.x * k, v.y * k, v.z * k⟩

def dot (a b : Vec3) : ℝ := a.x * b.x + a.y * b.y + a.z * b.z

def cross (a b : Vec3) : Vec3 :=
  ⟨a.y * b.z - a.z * b.y, a.z * b.x - a.x * b.z, a.x * b.y - a.y * b.x⟩

def norm (v : Vec3) : ℝ := Real.sqrt (v.dot v)

def normalize_or_zero (v : Vec3) : Vec3 :=
  let n := v.norm
  if n < 1e-12 then zero else v.scale (1 / n)

end Vec3

instance : Add Vec3 := ⟨fun a b => ⟨a.x + b.x, a.y + b.y, a.z + b.z⟩⟩

@[ext]
structure Quaternion where
  w : ℝ
  x : ℝ
  y : ℝ
  z : ℝ

namespace Quaternion

def identity : Quaternion := ⟨1, 0, 0, 0⟩

/-- Norm of a quaternion (the `n` computed inside `normalize`). -/
def qnorm (q : Quaternion) : ℝ :=
  Real.sqrt (q.w * q.w + q.x * q.x + q.y * q.y + q.z * q.z)

def normalize (q : Quaternion) : Quaternion :=
  let n := Real.sqrt (q.w * q.w + q.x * q.x + q.y * q.y + q.z * q.z)
  if n < 1e-15 then identity else ⟨q.w / n, q.x / n, q.y / n, q.z / n⟩

def mul (a b : Quaternion) : Quaternion :=
  ⟨a.w * b.w - a.x * b.x - a.y * b.y - a.z * b.z,
   a.w * b.x + a.x * b.w + a.y * b.z - a.z * b.y,
   a.w * b.y - a.x * b.z + a.y * b.w + a.z * b.x,
   a.w * b.z + a.x * b.y - a.y * b.x + a.z * b.w⟩

def conj (q : Quaternion) : Quaternion := ⟨q.w, -q.x, -q.y, -q.z⟩

def rotate_vec (q : Quaternion) (v : Vec3) : Vec3 :=
  let qv : Quaternion := ⟨0, v.x, v.y, v.z⟩
  let r := (q.mul qv).mul q.conj
  ⟨r.x, r.y, r.z⟩

def scale (q : Quaternion) (k : ℝ) : Quaternion := ⟨q.w * k, q.x * k, q.y * k, q.z * k⟩

end Quaternion

instance : Add Quaternion :=
  ⟨fun a b => ⟨a.w + b.w, a.x + b.x, a.y + b.y, a.z + b.z⟩⟩

def q_from_axis_angle (axis : Vec3) (angle : ℝ) : Quaternion :=
  let ha := 0.5 * angle
  let s := Real.sin ha
  let c := Real.cos ha
  let n := axis.normalize_or_zero
  ⟨c, n.x * s, n.y * s, n.z * s⟩

structure Gravity where
  g : ℝ

structure Environment where
  temperature_c : ℝ
  pressure_hpa : ℝ
  humidity_pct : ℝ

structure Atmosphere where
  dummy : Unit := ()

/-- Return (density, speed_of_sound) at altitude `z_m` (meters). -/
def Atmosphere.density_and_speed_of_sound (_ : Atmosphere) (env : Environment)
    (z_m : ℝ) : ℝ × ℝ :=
  let g : ℝ := 9.80665
  let r : ℝ := 287.05
  let gamma : ℝ := 1.4
  let t0_k := env.temperature_c + 273.15
  let p0_pa := env.pressure_hpa * 100
  let l : ℝ := -0.0065
  let z := z_m
  let t_k := max (t0_k + l * z) 150
  let p_pa :=
    if 1e-9 < |l| then p0_pa * Real.rpow (t_k / t0_k) (-g / (l * r))
    else p0_pa * Real.exp (-g * z / (r * t0_k))
  let rho := p_pa / (r * t_k)
  let a := Real.sqrt (gamma * r * t_k)
  (rho, a)

structure Projectile where
  mass : ℝ
  diameter : ℝ
  area : ℝ
  ixx : ℝ
  iyy : ℝ
  izz : ℝ
  spin_rad_s : ℝ

structure IntegrateOpts where
  dt : ℝ
  max_time : ℝ
  max_steps : ℕ
  ground_z : ℝ

/-- The aerodynamic coefficient provider (the `AeroModel` trait). -/
structure AeroModel where
  c_d : ℝ → ℝ → ℝ → ℝ
  c_l_alpha : ℝ → ℝ
  c_y_beta : ℝ → ℝ
  c_m_alpha : ℝ → ℝ
  c_m_q : ℝ → ℝ
  c_l_p : ℝ → ℝ
  c_magnus : ℝ → ℝ

def DefaultAeroApprox : AeroModel where
  c_d := fun mach _ _ =>
    if mach < 0.8 then 0.25 else if mach < 1.2 then 0.40
    else if mach < 2.0 then 0.30 else 0.25
  c_l_alpha := fun _ => 2.8
  c_y_beta := fun _ => 2.8
  c_m_alpha := fun _ => -0.9
  c_m_q := fun _ => -20.0
  c_l_p := fun _ => -0.02
  c_magnus := fun _ => 0.1

@[ext]
structure State where
  r : Vec3
  v : Vec3
  q : Quaternion
  w : Vec3

structure Sample where
  t : ℝ
  state : State
  mach : ℝ
  qbar : ℝ
  rho : ℝ
  alpha : ℝ
  beta : ℝ

/-- `flow_numbers`: returns (mach, qbar, rho, alpha, beta). -/
def flow_numbers (s : State) (atmos : Atmosphere) (env : Environment) :
    ℝ × ℝ × ℝ × ℝ × ℝ :=
  let v_b := s.q.conj.rotate_vec s.v
  let u := v_b.x
  let v := v_b.y
  let w := v_b.z
  let speed := max (Real.sqrt (u * u + v * v + w * w)) 1e-6
  let alpha := atan2 (-w) u
  let beta := atan2 v (Real.sqrt (u * u + w * w))
  let ra := atmos.density_and_speed_of_sound env s.r.z
  let rho := ra.1
  let a := ra.2
  let mach := speed / max a 1e-6
  let qbar := 0.5 * rho * speed * speed
  (mach, qbar, rho, alpha, beta)

/-- The Magnus force term built inside `dynamics`:
`c_mag * (omega cross v_body)` restricted to the y and z axes. -/
def f_magnus_of (c_mag : ℝ) (w v_b : Vec3) : Vec3 :=
  let wxv : Vec3 :=
    ⟨w.y * v_b.z - w.z * v_b.y,
     w.z * v_b.x - w.x * v_b.z,
     w.x * v_b.y - w.y * v_b.x⟩
  ⟨0, c_mag * wxv.y, -(c_mag * wxv.z)⟩

/-- The body-frame force vector `f_body` assembled inside `dynamics`. -/
def dynamics_body_force (s : State) (proj : Projectile) (aero : AeroModel)
    (atmos : Atmosphere) (env : Environment) : Vec3 :=
  let fn := flow_numbers s atmos env
  let mach := fn.1
  let qbar := fn.2.1
  let alpha := fn.2.2.2.1
  let beta := fn.2.2.2.2
  let v_b := s.q.conj.rotate_vec s.v
  let c_d := aero.c_d mach alpha beta
  let c_l_a := aero.c_l_alpha mach
  let c_y_b := aero.c_y_beta mach
  let c_mag := aero.c_magnus mach
  let sref := proj.area
  let f_drag_x := -qbar * sref * c_d
  let f_lift_z := -qbar * sref * c_l_a * alpha
  let f_side_y := qbar * sref * c_y_b * beta
  let fm := f_magnus_of c_mag s.w v_b
  ⟨f_drag_x, f_side_y + fm.y, f_lift_z + fm.z⟩

/-- The ODE right-hand side `dynamics`. -/
def dynamics (s : State) (proj : Projectile) (aero : AeroModel) (g : Gravity)
    (atmos : Atmosphere) (env : Environment) : State :=
  let fn := flow_numbers s atmos env
  let mach := fn.1
  let qbar := fn.2.1
  let alpha := fn.2.2.2.1
  let beta := fn.2.2.2.2
  let v_b := s.q.conj.rotate_vec s.v
  let v_mag := max (Real.sqrt (v_b.x * v_b.x + v_b.y * v_b.y + v_b.z * v_b.z)) 1e-6
  let c_m_a := aero.c_m_alpha mach
  let c_m_q := aero.c_m_q mach
  let c_l_p := aero.c_l_p mach
  let sref := proj.area
  let dref := proj.diameter
  let f_body := dynamics_body_force s proj aero atmos env
  let f_inertial := s.q.rotate_vec f_body
  let f_total : Vec3 := ⟨f_inertial.x, f_inertial.y, f_inertial.z + g.g⟩
  let a_inertial : Vec3 :=
    ⟨f_total.x / proj.mass, f_total.y / proj.mass, f_total.z / proj.mass⟩
  let m_pitch := qbar * sref * dref * (c_m_a * alpha)
  let m_yaw := qbar * sref * dref * (c_m_a * beta)
  let rate_nd := 0.5 * dref / v_mag
  let m_damp_pitch := qbar * sref * dref * (c_m_q * s.w.y * rate_nd)
  let m_damp_yaw := qbar * sref * dref * (c_m_q * s.w.z * rate_nd)
  let m_roll_damp := qbar * sref * dref * (c_l_p * s.w.x * rate_nd)
  let m_body : Vec3 := ⟨m_roll_damp, m_pitch + m_damp_pitch, m_yaw + m_damp_yaw⟩
  let ixx := max proj.ixx 1e-9
  let iyy := max proj.iyy 1e-9
  let izz := max proj.izz 1e-9
  let iw : Vec3 := ⟨ixx * s.w.x, iyy * s.w.y, izz * s.w.z⟩
  let wxiw : Vec3 :=
    ⟨s.w.y * iw.z - s.w.z * iw.y,
     s.w.z * iw.x - s.w.x * iw.z,
     s.w.x * iw.y - s.w.y * iw.x⟩
  let wdot : Vec3 :=
    ⟨(m_body.x - wxiw.x) / ixx, (m_body.y - wxiw.y) / iyy, (m_body.z - wxiw.z) / izz⟩
  let wq : Quaternion := ⟨0, s.w.x, s.w.y, s.w.z⟩
  let qdot := (s.q.mul wq).scale 0.5
  ⟨s.v, a_inertial, qdot, wdot⟩

/-- The second-stage state `s2` built inside `rk4_step` (fed to the second
derivative evaluation). -/
def rk4_s2 (f : State → State) (s : State) (dt : ℝ) : State :=
  let k1 := f s
  ⟨s.r + k1.r.scale (dt * 0.5), s.v + k1.v.scale (dt * 0.5),
   s.q + k1.q.scale (dt * 0.5), s.w + k1.w.scale (dt * 0.5)⟩

/-- The third-stage state `s3` built inside `rk4_step`. -/
def rk4_s3 (f : State → State) (s : State) (dt : ℝ) : State :=
  let k2 := f (rk4_s2 f s dt)
  ⟨s.r + k2.r.scale (dt * 0.5), s.v + k2.v.scale (dt * 0.5),
   s.q + k2.q.scale (dt * 0.5), s.w + k2.w.scale (dt * 0.5)⟩

/-- The fourth-stage state `s4` built inside `rk4_step`. -/
def rk4_s4 (f : State → State) (s : State) (dt : ℝ) : State :=
  let k3 := f (rk4_s3 f s dt)
  ⟨s.r + k3.r.scale dt, s.v + k3.v.scale dt,
   s.q + k3.q.scale dt, s.w + k3.w.scale dt⟩

def rk4_step (f : State → State) (s : State) (dt : ℝ) : State :=
  let k1 := f s
  let k2 := f (rk4_s2 f s dt)
  let k3 := f (rk4_s3 f s dt)
  let k4 := f (rk4_s4 f s dt)
  ⟨s.r + (k1.r + (k2.r + k3.r).scale 2 + k4.r).scale (dt / 6),
   s.v + (k1.v + (k2.v + k3.v).scale 2 + k4.v).scale (dt / 6),
   (s.q + (k1.q + (k2.q + k3.q).scale 2 + k4.q).scale (dt / 6)).normalize,
   s.w + (k1.w + (k2.w + k3.w).scale 2 + k4.w).scale (dt / 6)⟩

def mkSample (t : ℝ) (s : State) (atmos : Atmosphere) (env : Environment) : Sample :=
  let fn := flow_numbers s atmos env
  ⟨t, s, fn.1, fn.2.1, fn.2.2.1, fn.2.2.2.1, fn.2.2.2.2⟩

/-- State update of one iteration of the driver loop: an RK4 step followed by
the driver's defensive quaternion renormalization. -/
def nextState (dyn : State → State) (opts : IntegrateOpts) (s : State) : State :=
  let s1 := rk4_step dyn s opts.dt
  ⟨s1.r, s1.v, s1.q.normalize, s1.w⟩

/-- The `while` loop of `integrate_6dof`; `fuel` is the remaining step budget
`max_steps - steps`, `t` the elapsed time, `s` the current state. -/
def integrateLoop (dyn : State → State) (opts : IntegrateOpts)
    (atmos : Atmosphere) (env : Environment) :
    ℕ → ℝ → State → List Sample
  | 0, _, _ => []
  | fuel + 1, t, s =>
    if t ≤ opts.max_time then
      let smp := mkSample t s atmos env
      if s.r.z ≤ opts.ground_z ∧ 0 < t then [smp]
      else smp :: integrateLoop dyn opts atmos env fuel (t + opts.dt)
        (nextState dyn opts s)
    else []

/-- Main integration entry point. -/
def integrate_6dof (proj : Projectile) (env : Environment) (gravity : Gravity)
    (atmos : Atmosphere) (aero : AeroModel) (initial : State)
    (opts : IntegrateOpts) : List Sample :=
  integrateLoop (fun st => dynamics st proj aero gravity atmos env)
    opts atmos env opts.max_steps 0 initial

/-- Build an initial state from muzzle velocity, bore angles, and spin. -/
def initial_state_from_muzzle (muzzle_pos_m : Vec3)
    (muzzle_speed_ms bore_elevation_rad bore_azimuth_rad spin_rad_s : ℝ) : State :=
  let cx := Real.cos bore_azimuth_rad
  let sx := Real.sin bore_azimuth_rad
  let ce := Real.cos bore_elevation_rad
  let se := Real.sin bore_elevation_rad
  let forward : Vec3 := ⟨ce * cx, ce * sx, se⟩
  let x_body : Vec3 := ⟨1, 0, 0⟩
  let axis := (x_body.cross forward).normalize_or_zero
  let angle := Real.arccos (rclamp (x_body.dot forward) (-1) 1)
  let q := if |angle| < 1e-9 then Quaternion.identity else q_from_axis_angle axis angle
  ⟨muzzle_pos_m, forward.scale muzzle_speed_ms, q, ⟨spin_rad_s, 0, 0⟩⟩

/-- Spec 4.4: the flow-state evaluator as the spec describes it: body velocity
via the conjugate rotation, `alpha = atan2 (-w) u`, `beta = atan2 v (sqrt
(u^2 + w^2))`, speed the norm of the body velocity floored at 1e-6, Mach
`speed / max a 1e-6`, dynamic pressure `0.5 * rho * speed^2`. -/
def flow_numbers_spec (s : State) (atmos : Atmosphere) (env : Environment) :
    ℝ × ℝ × ℝ × ℝ × ℝ :=
  let v_b := s.q.conj.rotate_vec s.v
  let speed := max v_b.norm 1e-6
  let alpha := atan2 (-v_b.z) v_b.x
  let beta := atan2 v_b.y (Real.sqrt (v_b.x * v_b.x + v_b.z * v_b.z))
  let rho := (atmos.density_and_speed_of_sound env s.r.z).1
  let a := (atmos.density_and_speed_of_sound env s.r.z).2
  (speed / max a 1e-6, 0.5 * rho * speed ^ 2, rho, alpha, beta)

/-- Componentwise sum of two states viewed as flat 13-vectors (spec 4.6). -/
def State.addS (a b : State) : State := ⟨a.r + b.r, a.v + b.v, a.q + b.q, a.w + b.w⟩

/-- Componentwise scaling of a state viewed as a flat 13-vector (spec 4.6). -/
def State.smulS (k : ℝ) (a : State) : State :=
  ⟨a.r.scale k, a.v.scale k, a.q.scale k, a.w.scale k⟩

/-- Spec 4.6: the classical four-stage Runge-Kutta update, applied
componentwise over the flat state vector, with the blended quaternion
renormalized in the returned state. -/
def rk4_step_spec (f : State → State) (s : State) (dt : ℝ) : State :=
  let k1 := f s
  let k2 := f (s.addS (State.smulS (dt / 2) k1))
  let k3 := f (s.addS (State.smulS (dt / 2) k2))
  let k4 := f (s.addS (State.smulS dt k3))
  let blend := s.addS (State.smulS (dt / 6)
    (((k1.addS (State.smulS 2 k2)).addS (State.smulS 2 k3)).addS k4))
  ⟨blend.r, blend.v, blend.q.normalize, blend.w⟩

def projZ : Projectile := ⟨1, 1, 0, 1, 1, 1, 0⟩

def envZ : Environment := ⟨15, 1013, 50⟩

def gZ : Gravity := ⟨0⟩

def atmosZ : Atmosphere := ⟨()⟩

/-- A degenerate state (at rest, below ground level, identity orientation). -/
def sZ : State := ⟨⟨0, 0, -1⟩, ⟨0, 0, 0⟩, ⟨1, 0, 0, 0⟩, ⟨0, 0, 0⟩⟩

/-- The same state, but spinning about the body x axis at 1 rad/s. -/
def sW : State := ⟨⟨0, 0, -1⟩, ⟨0, 0, 0⟩, ⟨1, 0, 0, 0⟩, ⟨1, 0, 0⟩⟩

def dynZ : State → State := fun st => dynamics st projZ DefaultAeroApprox gZ atmosZ envZ

/-- Options for the witness runs: dt 1 s, max time 10 s, 5 steps, ground 0. -/
def optsT : IntegrateOpts := ⟨1, 10, 5, 0⟩

/-- An initial state whose quaternion has norm 2. -/
def sBad : State := ⟨⟨0, 0, -1⟩, ⟨0, 0, 0⟩, ⟨2, 0, 0, 0⟩, ⟨0, 0, 0⟩⟩

def optsB : IntegrateOpts := ⟨1, 10, 1, 0⟩

/-- Options with a zero step budget. -/
def opts0s : IntegrateOpts := ⟨1, 10, 0, 0⟩

/-- The divisors of the divisions executed by `density_and_speed_of_sound`:
the lapse exponent divisor `l * r`, the baseline temperature `t0_k` (base of
the power), and `r * t_k` (ideal-gas density); the `exp` branch instead
divides by `r * t0_k`. -/
def atmos_divisors (env : Environment) (z_m : ℝ) : List ℝ :=
  let r : ℝ := 287.05
  let l : ℝ := -0.0065
  let t0_k := env.temperature_c + 273.15
  let t_k := max (t0_k + l * z_m) 150
  (if 1e-9 < |l| then [l * r, t0_k] else [r * t0_k]) ++ [r * t_k]

/-- The divisors of the divisions executed by `flow_numbers` (including its
atmosphere call): the floored speed of sound. -/
def flow_divisors (s : State) (atmos : Atmosphere) (env : Environment) : List ℝ :=
  atmos_divisors env s.r.z ++
    [max (atmos.density_and_speed_of_sound env s.r.z).2 1e-6]

/-- The divisors of the divisions executed by `dynamics` (including its
`flow_numbers` call): the mass, the three floored principal inertias, and the
floored body speed. -/
def dynamics_divisors (s : State) (proj : Projectile) (atmos : Atmosphere)
    (env : Environment) : List ℝ :=
  let v_b := s.q.conj.rotate_vec s.v
  let v_mag := max (Real.sqrt (v_b.x * v_b.x + v_b.y * v_b.y + v_b.z * v_b.z)) 1e-6
  flow_divisors s atmos env ++
    [proj.mass, max proj.ixx 1e-9, max proj.iyy 1e-9, max proj.izz 1e-9, v_mag]

def envBad : Environment := ⟨-273.15, 1013, 50⟩

theorem Vec3.vadd_def (a b : Vec3) : a + b = ⟨a.x + b.x, a.y + b.y, a.z + b.z⟩ := rfl

theorem Quaternion.qadd_def (a b : Quaternion) :
    a + b = ⟨a.w + b.w, a.x + b.x, a.y + b.y, a.z + b.z⟩ := rfl


/-! ### General lemmas about the embedded operations -/

theorem Quaternion.qnorm_normalize (q : Quaternion) : q.normalize.qnorm = 1 := by
  have hS0 : 0 ≤ q.w * q.w + q.x * q.x + q.y * q.y + q.z * q.z :=
    add_nonneg (add_nonneg (add_nonneg (mul_self_nonneg q.w) (mul_self_nonneg q.x))
      (mul_self_nonneg q.y)) (mul_self_nonneg q.z)
  simp only [Quaternion.normalize, Quaternion.qnorm, Quaternion.identity]
  split_ifs with h
  · norm_num
  · set n := Real.sqrt (q.w * q.w + q.x * q.x + q.y * q.y + q.z * q.z) with hn_def
    have hn : 0 < n := by
      have h15 : (1e-15 : ℝ) ≤ n := le_of_not_lt h
      have : (0 : ℝ) < 1e-15 := by norm_num
      linarith
    have hS : 0 < q.w * q.w + q.x * q.x + q.y * q.y + q.z * q.z := Real.sqrt_pos.mp hn
    have hnn : n * n = q.w * q.w + q.x * q.x + q.y * q.y + q.z * q.z :=
      Real.mul_self_sqrt hS0
    have hn0 : n ≠ 0 := ne_of_gt hn
    have key : q.w / n * (q.w / n) + q.x / n * (q.x / n) + q.y / n * (q.y / n) +
        q.z / n * (q.z / n) =
        (q.w * q.w + q.x * q.x + q.y * q.y + q.z * q.z) / (n * n) := by
      field_simp
    rw [key, hnn, div_self (ne_of_gt hS), Real.sqrt_one]

theorem Quaternion.rotate_vec_zero (q : Quaternion) :
    q.rotate_vec ⟨0, 0, 0⟩ = ⟨0, 0, 0⟩ := by
  simp only [Quaternion.rotate_vec, Quaternion.mul, Quaternion.conj, Vec3.mk.injEq]
  refine ⟨by ring, by ring, by ring⟩

theorem dynamics_q (s : State) (proj : Projectile) (aero : AeroModel) (g : Gravity)
    (atmos : Atmosphere) (env : Environment) :
    (dynamics s proj aero g atmos env).q =
      (s.q.mul ⟨0, s.w.x, s.w.y, s.w.z⟩).scale 0.5 := rfl

theorem normalize_or_zero_zero : Vec3.normalize_or_zero ⟨0, 0, 0⟩ = Vec3.zero := by
  simp only [Vec3.normalize_or_zero, Vec3.norm, Vec3.dot]
  rw [if_pos]
  norm_num [Real.sqrt_zero]

/-! ### Specification-side definitions (written from the spec's words, for
refinement claims) -/

theorem rk4_s2_eq (f : State → State) (s : State) (dt : ℝ) :
    s.addS (State.smulS (dt / 2) (f s)) = rk4_s2 f s dt := by
  simp only [rk4_s2, State.addS, State.smulS, Vec3.scale, Quaternion.scale,
    Vec3.vadd_def, Quaternion.qadd_def, State.mk.injEq, Vec3.mk.injEq,
    Quaternion.mk.injEq]
  and_intros <;> ring

theorem rk4_s3_eq (f : State → State) (s : State) (dt : ℝ) :
    s.addS (State.smulS (dt / 2) (f (rk4_s2 f s dt))) = rk4_s3 f s dt := by
  simp only [rk4_s3, State.addS, State.smulS, Vec3.scale, Quaternion.scale,
    Vec3.vadd_def, Quaternion.qadd_def, State.mk.injEq, Vec3.mk.injEq,
    Quaternion.mk.injEq]
  and_intros <;> ring

theorem rk4_s4_eq (f : State → State) (s : State) (dt : ℝ) :
    s.addS (State.smulS dt (f (rk4_s3 f s dt))) = rk4_s4 f s dt := by
  simp only [rk4_s4, State.addS, State.smulS, Vec3.scale, Quaternion.scale,
    Vec3.vadd_def, Quaternion.qadd_def, State.mk.injEq, Vec3.mk.injEq,
    Quaternion.mk.injEq]

/-! ### Claim theorems -/

/-- C4: for every State, `flow_numbers` returns exactly the spec's tuple:
body velocity by the conjugate rotation, `alpha = atan2 (-w) u`,
`beta = atan2 v (sqrt (u^2+w^2))`, speed floored at 1e-6, Mach
`speed / max a 1e-6`, and `qbar = 0.5 * rho * speed^2`, with density and
speed of sound from the atmosphere model at the state's z position. -/
theorem C4_flow_numbers_matches_spec (s : State) (atmos : Atmosphere)
    (env : Environment) : flow_numbers s atmos env = flow_numbers_spec s atmos env := by
  simp only [flow_numbers, flow_numbers_spec, Vec3.norm, Vec3.dot, Prod.mk.injEq,
    true_and, and_true]
  ring

/-- C3: `rk4_step` computes exactly the classical four-stage Runge-Kutta
update applied componentwise across all four state fields treated as one flat
vector, with the blended quaternion normalized in the returned state. -/
theorem C3_rk4_step_is_classical_rk4 (f : State → State) (s : State) (dt : ℝ) :
    rk4_step f s dt = rk4_step_spec f s dt := by
  simp only [rk4_step, rk4_step_spec, rk4_s2_eq, rk4_s3_eq, rk4_s4_eq]
  have hq : s.q + ((f s).q + ((f (rk4_s2 f s dt)).q + (f (rk4_s3 f s dt)).q).scale 2 +
      (f (rk4_s4 f s dt)).q).scale (dt / 6) =
      (s.addS (State.smulS (dt / 6)
        ((((f s).addS (State.smulS 2 (f (rk4_s2 f s dt)))).addS
          (State.smulS 2 (f (rk4_s3 f s dt)))).addS (f (rk4_s4 f s dt))))).q := by
    simp only [State.addS, State.smulS, Quaternion.scale, Quaternion.qadd_def,
      Quaternion.mk.injEq]
    and_intros <;> ring
  refine State.ext ?_ ?_ ?_ ?_
  · simp only [State.addS, State.smulS, Vec3.scale, Vec3.vadd_def, Vec3.mk.injEq]
    and_intros <;> ring
  · simp only [State.addS, State.smulS, Vec3.scale, Vec3.vadd_def, Vec3.mk.injEq]
    and_intros <;> ring
  · show (s.q + _).normalize = Quaternion.normalize _
    rw [hq]
  · simp only [State.addS, State.smulS, Vec3.scale, Vec3.vadd_def, Vec3.mk.injEq]
    and_intros <;> ring

/-- C7: the Magnus contribution assembled inside `dynamics` has zero component
along the body x (bore) axis: only the y and z components of the cross product
of body angular rate with body-frame velocity enter (each scaled by the Magnus
coefficient, the z one with opposite sign), and the body-frame x force is the
drag term alone. -/
theorem C7_magnus_zero_bore_component (c_mag : ℝ) (w v_b : Vec3) (s : State)
    (proj : Projectile) (aero : AeroModel) (atmos : Atmosphere) (env : Environment) :
    (f_magnus_of c_mag w v_b).x = 0 ∧
    (f_magnus_of c_mag w v_b).y = c_mag * (w.cross v_b).y ∧
    (f_magnus_of c_mag w v_b).z = -(c_mag * (w.cross v_b).z) ∧
    (dynamics_body_force s proj aero atmos env).x =
      -(flow_numbers s atmos env).2.1 * proj.area *
        aero.c_d (flow_numbers s atmos env).1 (flow_numbers s atmos env).2.2.2.1
          (flow_numbers s atmos env).2.2.2.2 := by
  refine ⟨rfl, ?_, ?_, rfl⟩
  · simp only [f_magnus_of, Vec3.cross]
  · simp only [f_magnus_of, Vec3.cross]

/-! ### Concrete fixtures for counterexamples and witnesses -/

/-- C1 counterexample: for the real dynamics at a spinning state, the second
RK4 stage state carries a quaternion of norm sqrt 2, not 1: no renormalization
happens at the intermediate stages. -/
theorem C1_counterexample : (rk4_s2 dynZ sW 4).q.qnorm ≠ 1 := by
  have hq : (rk4_s2 dynZ sW 4).q = ⟨1, 1, 0, 0⟩ := by
    have hd : (dynZ sW).q = ⟨0, 0.5, 0, 0⟩ := by
      rw [dynZ, dynamics_q]
      simp only [sW, Quaternion.mul, Quaternion.scale, Quaternion.mk.injEq]
      norm_num
    show sW.q + (dynZ sW).q.scale (4 * 0.5) = _
    rw [hd]
    simp only [sW, Quaternion.scale, Quaternion.qadd_def, Quaternion.mk.injEq]
    norm_num
  rw [hq, Quaternion.qnorm]
  rw [show (1 : ℝ) * 1 + 1 * 1 + 0 * 0 + 0 * 0 = 2 by norm_num]
  intro h
  have h2 : (Real.sqrt 2) ^ 2 = 2 := Real.sq_sqrt (by norm_num)
  rw [h] at h2
  norm_num at h2

/-- C1 amended: the orientation quaternion is renormalized only after the
final RK4 weighted combination (and again by the driver): the state returned
by `rk4_step` always carries a unit-norm quaternion, but the intermediate
stage states fed to the second, third and fourth derivative evaluations are
plain linear combinations and need not be unit-norm. -/
theorem C1_amended_rk4_result_unit_norm (f : State → State) (s : State) (dt : ℝ) :
    (rk4_step f s dt).q.qnorm = 1 := by
  show (Quaternion.normalize _).qnorm = 1
  exact Quaternion.qnorm_normalize _

/-- C10: with elevation 0 and azimuth pi the forward vector is antiparallel to
the body x axis, the rotation axis degenerates to the zero vector, and the
constructed orientation quaternion is (cos (pi/2), 0, 0, 0) = (0,0,0,0): a
zero-norm quaternion, not a unit one; the identity fallback (|angle| < 1e-9)
does not cover this case since the angle is pi. -/
theorem C10_antiparallel_bore_gives_zero_quaternion (pos : Vec3) (speed spin : ℝ) :
    (initial_state_from_muzzle pos speed 0 Real.pi spin).q = ⟨0, 0, 0, 0⟩ ∧
    (initial_state_from_muzzle pos speed 0 Real.pi spin).q.qnorm = 0 := by
  have hfwd : (⟨Real.cos 0 * Real.cos Real.pi, Real.cos 0 * Real.sin Real.pi,
      Real.sin 0⟩ : Vec3) = ⟨-1, 0, 0⟩ := by
    simp [Real.cos_zero, Real.cos_pi, Real.sin_pi, Real.sin_zero]
  have hq : (initial_state_from_muzzle pos speed 0 Real.pi spin).q = ⟨0, 0, 0, 0⟩ := by
    show (if |Real.arccos (rclamp ((⟨1, 0, 0⟩ : Vec3).dot
        ⟨Real.cos 0 * Real.cos Real.pi, Real.cos 0 * Real.sin Real.pi, Real.sin 0⟩)
        (-1) 1)| < 1e-9
      then Quaternion.identity
      else q_from_axis_angle (((⟨1, 0, 0⟩ : Vec3).cross
        ⟨Real.cos 0 * Real.cos Real.pi, Real.cos 0 * Real.sin Real.pi,
          Real.sin 0⟩).normalize_or_zero)
        (Real.arccos (rclamp ((⟨1, 0, 0⟩ : Vec3).dot
          ⟨Real.cos 0 * Real.cos Real.pi, Real.cos 0 * Real.sin Real.pi,
            Real.sin 0⟩) (-1) 1))) = ⟨0, 0, 0, 0⟩
    rw [hfwd]
    have hdot : (⟨1, 0, 0⟩ : Vec3).dot ⟨-1, 0, 0⟩ = -1 := by
      simp [Vec3.dot]
    have hclamp : rclamp (-1 : ℝ) (-1) 1 = -1 := by
      rw [rclamp, max_self]
      exact min_eq_left (by norm_num)
    have hangle : Real.arccos (rclamp ((⟨1, 0, 0⟩ : Vec3).dot ⟨-1, 0, 0⟩) (-1) 1) =
        Real.pi := by
      rw [hdot, hclamp, Real.arccos_neg_one]
    rw [hangle]
    have hpi : ¬ |Real.pi| < 1e-9 := by
      rw [abs_of_pos Real.pi_pos]
      push_neg
      have h3 := Real.pi_gt_three
      linarith
    rw [if_neg hpi]
    have hcross : (⟨1, 0, 0⟩ : Vec3).cross ⟨-1, 0, 0⟩ = ⟨0, 0, 0⟩ := by
      simp [Vec3.cross]
    rw [hcross, normalize_or_zero_zero]
    simp only [q_from_axis_angle, Vec3.zero, normalize_or_zero_zero,
      Quaternion.mk.injEq, zero_mul, and_true, true_and]
    rw [show (0.5 : ℝ) * Real.pi = Real.pi / 2 by ring, Real.cos_pi_div_two]
  refine ⟨hq, ?_⟩
  rw [hq, Quaternion.qnorm]
  norm_num

/-! ### Lemmas about the driver loop -/

theorem integrateLoop_stop (dyn : State → State) (opts : IntegrateOpts)
    (atm : Atmosphere) (env : Environment) (fuel : ℕ) (t : ℝ) (s : State)
    (h1 : ¬ t ≤ opts.max_time) :
    integrateLoop dyn opts atm env (fuel + 1) t s = [] := by
  simp only [integrateLoop]
  rw [if_neg h1]

theorem integrateLoop_break (dyn : State → State) (opts : IntegrateOpts)
    (atm : Atmosphere) (env : Environment) (fuel : ℕ) (t : ℝ) (s : State)
    (h1 : t ≤ opts.max_time) (h2 : s.r.z ≤ opts.ground_z ∧ 0 < t) :
    integrateLoop dyn opts atm env (fuel + 1) t s = [mkSample t s atm env] := by
  simp only [integrateLoop]
  rw [if_pos h1, if_pos h2]

theorem integrateLoop_cons (dyn : State → State) (opts : IntegrateOpts)
    (atm : Atmosphere) (env : Environment) (fuel : ℕ) (t : ℝ) (s : State)
    (h1 : t ≤ opts.max_time) (h2 : ¬ (s.r.z ≤ opts.ground_z ∧ 0 < t)) :
    integrateLoop dyn opts atm env (fuel + 1) t s =
      mkSample t s atm env ::
        integrateLoop dyn opts atm env fuel (t + opts.dt) (nextState dyn opts s) := by
  simp only [integrateLoop]
  rw [if_pos h1, if_neg h2]

theorem nextState_qnorm (dyn : State → State) (opts : IntegrateOpts) (s : State) :
    (nextState dyn opts s).q.qnorm = 1 := by
  show (Quaternion.normalize _).qnorm = 1
  exact Quaternion.qnorm_normalize _

/-- Every sample emitted by the loop carries a unit-norm quaternion, provided
the incoming state does. -/
theorem integrateLoop_norm (dyn : State → State) (opts : IntegrateOpts)
    (atm : Atmosphere) (env : Environment) :
    ∀ (fuel : ℕ) (t0 : ℝ) (s : State), s.q.qnorm = 1 →
      ∀ (n : ℕ) (smp : Sample),
        (integrateLoop dyn opts atm env fuel t0 s).get? n = some smp →
        smp.state.q.qnorm = 1 := by
  intro fuel
  induction fuel with
  | zero =>
    intro t0 s hs n smp h
    simp [integrateLoop] at h
  | succ fuel ih =>
    intro t0 s hs n smp h
    by_cases h1 : t0 ≤ opts.max_time
    · by_cases h2 : s.r.z ≤ opts.ground_z ∧ 0 < t0
      · rw [integrateLoop_break dyn opts atm env fuel t0 s h1 h2] at h
        cases n with
        | zero =>
          rw [List.get?_cons_zero] at h
          injection h with h
          rw [← h]
          exact hs
        | succ m => simp at h
      · rw [integrateLoop_cons dyn opts atm env fuel t0 s h1 h2] at h
        cases n with
        | zero =>
          rw [List.get?_cons_zero] at h
          injection h with h
          rw [← h]
          exact hs
        | succ m =>
          rw [List.get?_cons_succ] at h
          exact ih (t0 + opts.dt) (nextState dyn opts s)
            (nextState_qnorm dyn opts s) m smp h
    · rw [integrateLoop_stop dyn opts atm env fuel t0 s h1] at h
      simp at h

/-- The time recorded on the `n`-th sample of the loop started at time `t0` is
`t0 + n * dt`. -/
theorem integrateLoop_get?_t (dyn : State → State) (opts : IntegrateOpts)
    (atm : Atmosphere) (env : Environment) :
    ∀ (fuel : ℕ) (t0 : ℝ) (s : State) (n : ℕ) (smp : Sample),
      (integrateLoop dyn opts atm env fuel t0 s).get? n = some smp →
      smp.t = t0 + n * opts.dt := by
  intro fuel
  induction fuel with
  | zero =>
    intro t0 s n smp h
    simp [integrateLoop] at h
  | succ fuel ih =>
    intro t0 s n smp h
    by_cases h1 : t0 ≤ opts.max_time
    · by_cases h2 : s.r.z ≤ opts.ground_z ∧ 0 < t0
      · rw [integrateLoop_break dyn opts atm env fuel t0 s h1 h2] at h
        cases n with
        | zero =>
          rw [List.get?_cons_zero] at h
          injection h with h
          rw [← h]
          show t0 = t0 + (0 : ℕ) * opts.dt
          simp
        | succ m => simp at h
      · rw [integrateLoop_cons dyn opts atm env fuel t0 s h1 h2] at h
        cases n with
        | zero =>
          rw [List.get?_cons_zero] at h
          injection h with h
          rw [← h]
          show t0 = t0 + (0 : ℕ) * opts.dt
          simp
        | succ m =>
          rw [List.get?_cons_succ] at h
          have := ih (t0 + opts.dt) (nextState dyn opts s) m smp h
          rw [this]
          push_cast
          ring
    · rw [integrateLoop_stop dyn opts atm env fuel t0 s h1] at h
      simp at h

/-- If the `n`-th emitted sample has positive time and altitude at or below
the ground threshold, it is the last sample of the loop's output. -/
theorem integrateLoop_ground_last (dyn : State → State) (opts : IntegrateOpts)
    (atm : Atmosphere) (env : Environment) :
    ∀ (fuel : ℕ) (t0 : ℝ) (s : State) (n : ℕ) (smp : Sample),
      (integrateLoop dyn opts atm env fuel t0 s).get? n = some smp →
      0 < smp.t → smp.state.r.z ≤ opts.ground_z →
      (integrateLoop dyn opts atm env fuel t0 s).length = n + 1 ∧
      (integrateLoop dyn opts atm env fuel t0 s).get? (n + 1) = none := by
  intro fuel
  induction fuel with
  | zero =>
    intro t0 s n smp h _ _
    simp [integrateLoop] at h
  | succ fuel ih =>
    intro t0 s n smp h hpos hgnd
    by_cases h1 : t0 ≤ opts.max_time
    · by_cases h2 : s.r.z ≤ opts.ground_z ∧ 0 < t0
      · rw [integrateLoop_break dyn opts atm env fuel t0 s h1 h2] at h ⊢
        cases n with
        | zero => simp
        | succ m => simp at h
      · rw [integrateLoop_cons dyn opts atm env fuel t0 s h1 h2] at h ⊢
        cases n with
        | zero =>
          rw [List.get?_cons_zero] at h
          injection h with h
          rw [← h] at hpos hgnd
          exact absurd ⟨hgnd, hpos⟩ h2
        | succ m =>
          rw [List.get?_cons_succ] at h
          obtain ⟨hlen, hnone⟩ :=
            ih (t0 + opts.dt) (nextState dyn opts s) m smp h hpos hgnd
          constructor
          · rw [List.length_cons, hlen]
          · rw [List.get?_cons_succ]
            exact hnone
    · rw [integrateLoop_stop dyn opts atm env fuel t0 s h1] at h
      simp at h

/-- With remaining fuel and time budget, the head sample of the loop is the
sample of the incoming state at the current time. -/
theorem integrateLoop_get?_zero (dyn : State → State) (opts : IntegrateOpts)
    (atm : Atmosphere) (env : Environment) (fuel : ℕ) (t0 : ℝ) (s : State)
    (hf : fuel ≠ 0) (h1 : t0 ≤ opts.max_time) :
    (integrateLoop dyn opts atm env fuel t0 s).get? 0 = some (mkSample t0 s atm env) := by
  obtain ⟨f, rfl⟩ : ∃ f, fuel = f + 1 := ⟨fuel - 1, by omega⟩
  by_cases h2 : s.r.z ≤ opts.ground_z ∧ 0 < t0
  · rw [integrateLoop_break dyn opts atm env f t0 s h1 h2, List.get?_cons_zero]
  · rw [integrateLoop_cons dyn opts atm env f t0 s h1 h2, List.get?_cons_zero]

/-- A loop started at time 0 with at least two steps of fuel and `dt` within
the time budget emits at least two samples, regardless of the initial
altitude: the ground check cannot fire at time 0. -/
theorem integrateLoop_two_le_length (dyn : State → State) (opts : IntegrateOpts)
    (atm : Atmosphere) (env : Environment) (fuel : ℕ) (s : State)
    (h0 : (0 : ℝ) ≤ opts.max_time) (hdt : opts.dt ≤ opts.max_time)
    (hf : 2 ≤ fuel) :
    2 ≤ (integrateLoop dyn opts atm env fuel 0 s).length := by
  obtain ⟨f, rfl⟩ : ∃ f, fuel = (f + 1) + 1 := ⟨fuel - 2, by omega⟩
  rw [integrateLoop_cons dyn opts atm env (f + 1) 0 s h0
    (by intro hc; exact absurd hc.2 (lt_irrefl 0))]
  rw [List.length_cons]
  have hz := integrateLoop_get?_zero dyn opts atm env (f + 1) (0 + opts.dt)
    (nextState dyn opts s) (Nat.succ_ne_zero f) (by rw [zero_add]; exact hdt)
  obtain ⟨hlt, -⟩ := List.get?_eq_some.mp hz
  omega

/-! ### A fully evaluated concrete trajectory (used by the witnesses)

With zero reference area, zero gravity, zero velocity and zero body rate, the
dynamics derivative vanishes and the RK4 step is the identity, so the run can
be traced exactly. -/

theorem sZ_r : sZ.r = ⟨0, 0, -1⟩ := rfl

theorem sZ_v : sZ.v = ⟨0, 0, 0⟩ := rfl

theorem sZ_q : sZ.q = ⟨1, 0, 0, 0⟩ := rfl

theorem sZ_w : sZ.w = ⟨0, 0, 0⟩ := rfl

theorem projZ_area : projZ.area = 0 := rfl

theorem gZ_g : gZ.g = 0 := rfl

theorem dynamics_body_force_sZ :
    dynamics_body_force sZ projZ DefaultAeroApprox atmosZ envZ = ⟨0, 0, 0⟩ := by
  simp [dynamics_body_force, f_magnus_of, sZ, projZ, Quaternion.rotate_vec_zero,
    Vec3.mk.injEq]

theorem dynZ_sZ : dynZ sZ = ⟨⟨0, 0, 0⟩, ⟨0, 0, 0⟩, ⟨0, 0, 0, 0⟩, ⟨0, 0, 0⟩⟩ := by
  show dynamics sZ projZ DefaultAeroApprox gZ atmosZ envZ = _
  refine State.ext ?_ ?_ ?_ ?_ <;>
    simp [dynamics, dynamics_body_force_sZ, sZ_v, sZ_q, sZ_w, projZ_area, gZ_g,
      Quaternion.rotate_vec_zero, Quaternion.mul, Quaternion.scale,
      Vec3.mk.injEq, Quaternion.mk.injEq]

theorem normalize_one_quaternion :
    (⟨1, 0, 0, 0⟩ : Quaternion).normalize = ⟨1, 0, 0, 0⟩ := by
  have harg : (1 : ℝ) * 1 + 0 * 0 + 0 * 0 + 0 * 0 = 1 := by norm_num
  simp only [Quaternion.normalize, harg, Real.sqrt_one]
  rw [if_neg (by norm_num : ¬ (1 : ℝ) < 1e-15)]
  norm_num

theorem rk4_s2_sZ : rk4_s2 dynZ sZ 1 = sZ := by
  refine State.ext ?_ ?_ ?_ ?_ <;>
    simp [rk4_s2, dynZ_sZ, sZ_r, sZ_v, sZ_q, sZ_w, Vec3.scale, Quaternion.scale,
      Vec3.vadd_def, Quaternion.qadd_def, Vec3.mk.injEq, Quaternion.mk.injEq]

theorem rk4_s3_sZ : rk4_s3 dynZ sZ 1 = sZ := by
  refine State.ext ?_ ?_ ?_ ?_ <;>
    simp [rk4_s3, rk4_s2_sZ, dynZ_sZ, sZ_r, sZ_v, sZ_q, sZ_w, Vec3.scale,
      Quaternion.scale, Vec3.vadd_def, Quaternion.qadd_def, Vec3.mk.injEq,
      Quaternion.mk.injEq]

theorem rk4_s4_sZ : rk4_s4 dynZ sZ 1 = sZ := by
  refine State.ext ?_ ?_ ?_ ?_ <;>
    simp [rk4_s4, rk4_s3_sZ, dynZ_sZ, sZ_r, sZ_v, sZ_q, sZ_w, Vec3.scale,
      Quaternion.scale, Vec3.vadd_def, Quaternion.qadd_def, Vec3.mk.injEq,
      Quaternion.mk.injEq]

theorem rk4_step_sZ : rk4_step dynZ sZ 1 = sZ := by
  refine State.ext ?_ ?_ ?_ ?_ <;>
    simp [rk4_step, rk4_s2_sZ, rk4_s3_sZ, rk4_s4_sZ, dynZ_sZ, sZ_r, sZ_v, sZ_q,
      sZ_w, Vec3.scale, Quaternion.scale, Vec3.vadd_def, Quaternion.qadd_def,
      normalize_one_quaternion, Vec3.mk.injEq, Quaternion.mk.injEq]

theorem nextState_sZ : nextState dynZ optsT sZ = sZ := by
  show (⟨(rk4_step dynZ sZ optsT.dt).r, (rk4_step dynZ sZ optsT.dt).v,
    (rk4_step dynZ sZ optsT.dt).q.normalize, (rk4_step dynZ sZ optsT.dt).w⟩ : State) = sZ
  rw [show optsT.dt = 1 from rfl, rk4_step_sZ, sZ_q, normalize_one_quaternion]
  rfl

/-- The complete run for the degenerate scenario: the initial sample at time 0
(below ground, but not terminating because time is 0), then one more sample at
time 1 that triggers the ground check. -/
theorem trace0 : integrate_6dof projZ envZ gZ atmosZ DefaultAeroApprox sZ optsT =
    [mkSample 0 sZ atmosZ envZ, mkSample 1 sZ atmosZ envZ] := by
  show integrateLoop dynZ optsT atmosZ envZ 5 0 sZ = _
  rw [show (5 : ℕ) = 4 + 1 from rfl,
    integrateLoop_cons dynZ optsT atmosZ envZ 4 0 sZ
      (by norm_num [optsT]) (by intro hc; exact absurd hc.2 (lt_irrefl 0))]
  rw [nextState_sZ, show (0 : ℝ) + optsT.dt = 1 by norm_num [optsT]]
  rw [show (4 : ℕ) = 3 + 1 from rfl,
    integrateLoop_break dynZ optsT atmosZ envZ 3 1 sZ
      (by norm_num [optsT]) (by norm_num [optsT, sZ])]

/-! ### Division audit (C8) -/

theorem abs_lapse : (1e-9 : ℝ) < |(-0.0065 : ℝ)| := by
  rw [abs_of_neg (by norm_num : (-0.0065 : ℝ) < 0)]
  norm_num

/-- C8 counterexample: at ambient temperature -273.15 C the baseline absolute
temperature `t0_k` is 0, and it is used as a divisor inside the barometric
power law even though the projectile mass is positive: the divisor list
contains 0. -/
theorem C8_counterexample :
    0 < projZ.mass ∧ ¬ ∀ d ∈ dynamics_divisors sZ projZ atmosZ envBad, d ≠ 0 := by
  refine ⟨by norm_num [projZ], ?_⟩
  intro h
  refine h 0 ?_ rfl
  simp only [dynamics_divisors, flow_divisors, atmos_divisors, if_pos abs_lapse,
    List.mem_append, List.mem_cons]
  norm_num [envBad]

/-- C8 amended: under the preconditions mass > 0 and baseline absolute
temperature nonzero (temperature_c different from -273.15), every division
performed during one dynamics evaluation (including its flow_numbers and
atmosphere calls) has a nonzero divisor. -/
theorem C8_amended_divisors_nonzero (s : State) (proj : Projectile)
    (atmos : Atmosphere) (env : Environment) (d : ℝ)
    (hm : 0 < proj.mass) (ht : env.temperature_c + 273.15 ≠ 0)
    (hd : d ∈ dynamics_divisors s proj atmos env) : d ≠ 0 := by
  simp only [dynamics_divisors, flow_divisors, atmos_divisors, if_pos abs_lapse,
    List.mem_append, List.mem_cons, List.mem_singleton, List.not_mem_nil,
    or_false] at hd
  rcases hd with (((rfl | rfl) | rfl) | rfl) | rfl | rfl | rfl | rfl | rfl
  · norm_num
  · exact ht
  · exact ne_of_gt (mul_pos (by norm_num)
      (lt_of_lt_of_le (by norm_num) (le_max_right _ _)))
  · exact ne_of_gt (lt_of_lt_of_le (by norm_num) (le_max_right _ _))
  · exact ne_of_gt hm
  · exact ne_of_gt (lt_of_lt_of_le (by norm_num) (le_max_right _ _))
  · exact ne_of_gt (lt_of_lt_of_le (by norm_num) (le_max_right _ _))
  · exact ne_of_gt (lt_of_lt_of_le (by norm_num) (le_max_right _ _))
  · exact ne_of_gt (lt_of_lt_of_le (by norm_num) (le_max_right _ _))

theorem C8_witness :
    0 < projZ.mass ∧ envZ.temperature_c + 273.15 ≠ 0 ∧
    projZ.mass ∈ dynamics_divisors sZ projZ atmosZ envZ ∧ projZ.mass ≠ 0 := by
  have hmem : projZ.mass ∈ dynamics_divisors sZ projZ atmosZ envZ := by
    simp only [dynamics_divisors, List.mem_append]
    exact Or.inr (List.mem_cons_self _ _)
  exact ⟨by norm_num [projZ], by norm_num [envZ], hmem,
    C8_amended_divisors_nonzero sZ projZ atmosZ envZ projZ.mass
      (by norm_num [projZ]) (by norm_num [envZ]) hmem⟩

/-! ### C2: quaternion norm of emitted samples -/

theorem runB : integrate_6dof projZ envZ gZ atmosZ DefaultAeroApprox sBad optsB =
    [mkSample 0 sBad atmosZ envZ] := by
  show integrateLoop (fun st => dynamics st projZ DefaultAeroApprox gZ atmosZ envZ)
    optsB atmosZ envZ 1 0 sBad = _
  rw [show (1 : ℕ) = 0 + 1 from rfl,
    integrateLoop_cons _ optsB atmosZ envZ 0 0 sBad (by norm_num [optsB])
      (by intro hc; exact absurd hc.2 (lt_irrefl 0))]
  rfl

/-- C2 counterexample: the very first sample carries the caller-supplied
initial state unchanged, so a caller-supplied quaternion of norm 2 appears in
the output with |norm - 1| = 1 > 1e-6. -/
theorem C2_counterexample :
    ¬ ∀ smp ∈ integrate_6dof projZ envZ gZ atmosZ DefaultAeroApprox sBad optsB,
      |smp.state.q.qnorm - 1| ≤ 1e-6 := by
  intro h
  have hm := h (mkSample 0 sBad atmosZ envZ)
    (by rw [runB]; exact List.mem_singleton_self _)
  have hq : (mkSample 0 sBad atmosZ envZ).state.q.qnorm = 2 := by
    show Quaternion.qnorm ⟨2, 0, 0, 0⟩ = 2
    rw [Quaternion.qnorm, show (2 : ℝ) * 2 + 0 * 0 + 0 * 0 + 0 * 0 = 2 ^ 2 by norm_num,
      Real.sqrt_sq (by norm_num : (0 : ℝ) ≤ 2)]
  rw [hq] at hm
  norm_num at hm

/-- C2 amended: every sample after the first carries a quaternion whose norm
is within 1e-6 of 1 (exactly 1 in exact arithmetic); the first sample carries
the caller's quaternion unchanged and can violate the bound. -/
theorem C2_amended_unit_norm_after_first (proj : Projectile) (env : Environment)
    (gravity : Gravity) (atmos : Atmosphere) (aero : AeroModel) (initial : State)
    (opts : IntegrateOpts) (i : ℕ) (smp : Sample) (h1 : 1 ≤ i)
    (h2 : (integrate_6dof proj env gravity atmos aero initial opts).get? i = some smp) :
    |smp.state.q.qnorm - 1| ≤ 1e-6 := by
  have key : smp.state.q.qnorm = 1 := by
    obtain ⟨n, rfl⟩ : ∃ n, i = n + 1 := ⟨i - 1, by omega⟩
    simp only [integrate_6dof] at h2
    rcases hfuel : opts.max_steps with _ | fuel
    · rw [hfuel] at h2
      simp [integrateLoop] at h2
    · rw [hfuel] at h2
      by_cases hle : (0 : ℝ) ≤ opts.max_time
      · have hbr : ¬ (initial.r.z ≤ opts.ground_z ∧ (0 : ℝ) < 0) :=
          fun hc => absurd hc.2 (lt_irrefl 0)
        rw [integrateLoop_cons _ opts atmos env fuel 0 initial hle hbr,
          List.get?_cons_succ] at h2
        exact integrateLoop_norm _ opts atmos env fuel (0 + opts.dt) _
          (nextState_qnorm _ opts initial) n smp h2
      · rw [integrateLoop_stop _ opts atmos env fuel 0 initial hle] at h2
        simp at h2
  rw [key]
  norm_num

theorem C2_amended_witness :
    |(mkSample 1 sZ atmosZ envZ).state.q.qnorm - 1| ≤ 1e-6 :=
  C2_amended_unit_norm_after_first projZ envZ gZ atmosZ DefaultAeroApprox sZ optsT 1
    (mkSample 1 sZ atmosZ envZ) (by norm_num) (by rw [trace0]; rfl)

/-! ### C5, C6, C9: driver loop behaviour -/

/-- C5: a sample with positive time and altitude at or below the ground
threshold is the last sample: nothing follows it; and a sample at or below
the threshold at time 0 does not by itself terminate: with fuel and time
budget remaining the run still emits a second sample. -/
theorem C5_ground_impact_terminates (proj : Projectile) (env : Environment)
    (gravity : Gravity) (atmos : Atmosphere) (aero : AeroModel) (initial : State)
    (opts : IntegrateOpts) :
    (∀ (i : ℕ) (smp : Sample),
        (integrate_6dof proj env gravity atmos aero initial opts).get? i = some smp →
        0 < smp.t → smp.state.r.z ≤ opts.ground_z →
        (integrate_6dof proj env gravity atmos aero initial opts).length = i + 1 ∧
        (integrate_6dof proj env gravity atmos aero initial opts).get? (i + 1) = none) ∧
    ((0 : ℝ) ≤ opts.max_time → opts.dt ≤ opts.max_time → 2 ≤ opts.max_steps →
      2 ≤ (integrate_6dof proj env gravity atmos aero initial opts).length) := by
  constructor
  · intro i smp h hpos hgnd
    exact integrateLoop_ground_last _ opts atmos env opts.max_steps 0 initial
      i smp h hpos hgnd
  · intro h0 hdt hms
    exact integrateLoop_two_le_length _ opts atmos env opts.max_steps initial h0 hdt hms

theorem C5_witness :
    ((integrate_6dof projZ envZ gZ atmosZ DefaultAeroApprox sZ optsT).length = 1 + 1 ∧
     (integrate_6dof projZ envZ gZ atmosZ DefaultAeroApprox sZ optsT).get? (1 + 1) =
       none) ∧
    2 ≤ (integrate_6dof projZ envZ gZ atmosZ DefaultAeroApprox sZ optsT).length := by
  have h := C5_ground_impact_terminates projZ envZ gZ atmosZ DefaultAeroApprox sZ optsT
  exact ⟨h.1 1 (mkSample 1 sZ atmosZ envZ) (by rw [trace0]; rfl)
      (by show (0 : ℝ) < 1; norm_num) (by show (-1 : ℝ) ≤ optsT.ground_z; norm_num [optsT]),
    h.2 (by norm_num [optsT]) (by norm_num [optsT]) (by norm_num [optsT])⟩

/-- C6: with positive dt, the i-th sample of a run is timestamped exactly
i * dt, and sample times are strictly increasing. -/
theorem C6_sample_times (proj : Projectile) (env : Environment) (gravity : Gravity)
    (atmos : Atmosphere) (aero : AeroModel) (initial : State) (opts : IntegrateOpts)
    (hdt : 0 < opts.dt) (i j : ℕ) (si sj : Sample)
    (hi : (integrate_6dof proj env gravity atmos aero initial opts).get? i = some si)
    (hj : (integrate_6dof proj env gravity atmos aero initial opts).get? j = some sj)
    (hij : i < j) :
    si.t = i * opts.dt ∧ sj.t = j * opts.dt ∧ si.t < sj.t := by
  have h1 := integrateLoop_get?_t _ opts atmos env opts.max_steps 0 initial i si hi
  have h2 := integrateLoop_get?_t _ opts atmos env opts.max_steps 0 initial j sj hj
  rw [zero_add] at h1 h2
  refine ⟨h1, h2, ?_⟩
  rw [h1, h2]
  exact mul_lt_mul_of_pos_right (by exact_mod_cast hij) hdt

theorem C6_witness :
    (0 : ℝ) < optsT.dt ∧
    ((mkSample 0 sZ atmosZ envZ).t = ((0 : ℕ) : ℝ) * optsT.dt ∧
     (mkSample 1 sZ atmosZ envZ).t = ((1 : ℕ) : ℝ) * optsT.dt ∧
     (mkSample 0 sZ atmosZ envZ).t < (mkSample 1 sZ atmosZ envZ).t) :=
  ⟨by norm_num [optsT],
    C6_sample_times projZ envZ gZ atmosZ DefaultAeroApprox sZ optsT
      (by norm_num [optsT]) 0 1 (mkSample 0 sZ atmosZ envZ) (mkSample 1 sZ atmosZ envZ)
      (by rw [trace0]; rfl) (by rw [trace0]; rfl) (by norm_num)⟩

/-- C9 counterexample: with max_steps = 0 the while condition fails before the
first sample is emitted and the returned sequence is empty, contrary to the
claim that a sample is always emitted before any termination check. -/
theorem C9_counterexample :
    integrate_6dof projZ envZ gZ atmosZ DefaultAeroApprox sZ opts0s = [] := rfl

/-- C9 amended: provided the while condition admits a first iteration
(max_time at least 0 and max_steps at least 1), the returned sequence is
non-empty and its first sample has time 0 and carries exactly the caller's
initial state. -/
theorem C9_amended_first_sample (proj : Projectile) (env : Environment)
    (gravity : Gravity) (atmos : Atmosphere) (aero : AeroModel) (initial : State)
    (opts : IntegrateOpts) (h1 : (0 : ℝ) ≤ opts.max_time) (h2 : 1 ≤ opts.max_steps) :
    (integrate_6dof proj env gravity atmos aero initial opts).get? 0 =
      some (mkSample 0 initial atmos env) ∧
    (mkSample 0 initial atmos env).t = 0 ∧
    (mkSample 0 initial atmos env).state = initial := by
  refine ⟨?_, rfl, rfl⟩
  exact integrateLoop_get?_zero _ opts atmos env opts.max_steps 0 initial (by omega) h1

theorem C9_witness :
    (integrate_6dof projZ envZ gZ atmosZ DefaultAeroApprox sZ optsT).get? 0 =
      some (mkSample 0 sZ atmosZ envZ) ∧
    (mkSample 0 sZ atmosZ envZ).t = 0 ∧ (mkSample 0 sZ atmosZ envZ).state = sZ :=
  C9_amended_first_sample projZ envZ gZ atmosZ DefaultAeroApprox sZ optsT
    (by norm_num [optsT]) (by norm_num [optsT])

end

end Ballistics
